import Mathlib

/-!
Splash screen of the crosswalk-tizen runtime.

A shallow embedding of `runtime/browser/splash_screen.cc`:

* `ChooseOrientation`, the orientation and asset resolution;
* `SetImageBorder`, the decoding of the border descriptors;
* the `SplashScreen` constructor with `GetDimensions`, `SetBackground`, `SetImage`;
* `SplashScreen::HideSplashScreen`, the hide state machine.

The widget toolkit (EFL) is an external collaborator.  Every call the code makes to it
is recorded, in program order, in a log of `Call`s, and the results the toolkit hands
back (the screen size, the two freshly created objects) come from a `Toolkit` record.
A pointer is an `Option`: `none` is `nullptr`.  Dereferencing a null pointer and
`front()` of an empty vector are undefined behaviour in the source and are faults of
the embedding (`Except Fault`).
-/

set_option linter.dupNamespace false

namespace wgt.parse

/-- Modelled from the spec: the manifest orientation keys of
`manifest_handlers/splash_screen_handler.h`, which is not part of the sources
(spec: "keys: PORTRAIT, LANDSCAPE, AUTO, NONE"). -/
inductive ScreenOrientation where
  | AUTO
  | PORTRAIT
  | LANDSCAPE
  | NONE
  deriving DecidableEq

/-- Modelled from the spec: the background colour, an RGB triple; the source reads
`background_color->red`, `->green` and `->blue`. -/
structure Color where
  red : Int
  green : Int
  blue : Int
  deriving DecidableEq

/-- Modelled from the spec: the asset set of one orientation key.  The source reads the
vectors `background_image` and `image` and the pointer `background_color`; the border
descriptors are the fourth field the spec lists. -/
structure SplashScreenData where
  background_image : List String
  image : List String
  image_border : List String
  background_color : Option Color
  deriving DecidableEq

/-- Modelled from the spec: the readiness trigger, "`readyWhen` enum {FIRST_PAINT,
COMPLETE}", under the names the source uses. -/
inductive ReadyWhen where
  | FIRSTPAINT
  | COMPLETE
  deriving DecidableEq

/-- The `std::map<ScreenOrientation, SplashScreenData>` of the source, as the list of
its entries.  Every `std::map` is such a list (with distinct keys); the theorems below
hold for all lists. -/
abbrev SplashMap := List (ScreenOrientation × SplashScreenData)

/-- Modelled from the spec: the splash configuration, a mapping plus `readyWhen`; the
source reads it through `splash_screen_data()` and `ready_when()`. -/
structure SplashScreenInfo where
  splash_screen_data : SplashMap
  ready_when : ReadyWhen
  deriving DecidableEq

/-- A value-initialised `SplashScreenData`, what `operator[]` inserts for a new key. -/
def SplashScreenData.empty : SplashScreenData :=
  { background_image := [], image := [], image_border := [], background_color := none }

/-- The call `splash_map.find(key)`: the entry with that key, `none` for `end()`. -/
def SplashMap.find (splash_map : SplashMap) (key : ScreenOrientation) :
    Option (ScreenOrientation × SplashScreenData) :=
  List.find? (fun entry => decide (entry.1 = key)) splash_map

/-- The expression `splash_map[key]`: the data stored under the key, a value-initialised
one when the key is new. -/
def SplashMap.index (splash_map : SplashMap) (key : ScreenOrientation) : SplashScreenData :=
  match splash_map.find key with
  | some entry => entry.2
  | none => SplashScreenData.empty

/-- The mapping has an entry for the key (`splash_map.count(key) != 0`). -/
def SplashMap.hasKey (splash_map : SplashMap) (key : ScreenOrientation) : Bool :=
  splash_map.any (fun entry => decide (entry.1 = key))

end wgt.parse

namespace runtime

/-- A toolkit object (`Evas_Object`), named by a number. -/
abbrev EvasObject := Nat

namespace NativeWindow

/-- Modelled from the spec: the orientation a window reports, "enum {PORTRAIT_PRIMARY,
LANDSCAPE_PRIMARY, …}" of `runtime/browser/native_window.h`, which is not part of the
sources.  `OTHER` stands for the values the spec leaves unnamed. -/
inductive ScreenOrientation where
  | PORTRAIT_PRIMARY
  | LANDSCAPE_PRIMARY
  | OTHER (code : Nat)
  deriving DecidableEq

end NativeWindow

/-- What the source reads from a `runtime::NativeWindow`: `natural_orientation()` and
`evas_object()`. -/
structure NativeWindow where
  natural_orientation : NativeWindow.ScreenOrientation
  evas_object : Option EvasObject
  deriving DecidableEq

/-- The function `ChooseOrientation` of the source (lines 38-57).  An iterator is the
entry it points to, `none` for `splash_map.end()`. -/
def ChooseOrientation (splash_map : wgt.parse.SplashMap)
    (screen_orientation : NativeWindow.ScreenOrientation) : wgt.parse.ScreenOrientation :=
  let orientation_pair :=
    if screen_orientation = NativeWindow.ScreenOrientation.PORTRAIT_PRIMARY then
      splash_map.find wgt.parse.ScreenOrientation.PORTRAIT
    else
      splash_map.find wgt.parse.ScreenOrientation.LANDSCAPE
  let orientation_pair :=
    if orientation_pair.isNone then splash_map.find wgt.parse.ScreenOrientation.AUTO
    else orientation_pair
  match orientation_pair with
  | some entry => entry.1
  | none => wgt.parse.ScreenOrientation.NONE

/-- The reference precedence of the spec (section 4.1), written from its words: try
PORTRAIT for PORTRAIT_PRIMARY and LANDSCAPE otherwise; fall back to AUTO when the chosen
key is absent; resolve to NONE when AUTO is absent too. -/
def referenceResolve (splash_map : wgt.parse.SplashMap)
    (screen_orientation : NativeWindow.ScreenOrientation) : wgt.parse.ScreenOrientation :=
  let chosen :=
    match screen_orientation with
    | NativeWindow.ScreenOrientation.PORTRAIT_PRIMARY => wgt.parse.ScreenOrientation.PORTRAIT
    | _ => wgt.parse.ScreenOrientation.LANDSCAPE
  if splash_map.hasKey chosen then chosen
  else if splash_map.hasKey wgt.parse.ScreenOrientation.AUTO then
    wgt.parse.ScreenOrientation.AUTO
  else wgt.parse.ScreenOrientation.NONE

/-- The windowing backend the build selects with `HAVE_X11` or `HAVE_WAYLAND`; `NEITHER`
is a build that defines none of the two. -/
inductive Backend where
  | X11
  | WAYLAND
  | NEITHER
  deriving DecidableEq

/-- What the toolkit hands back to the code: the screen size the size query stores in
`w` and `h`, and the objects `elm_bg_add` and `elm_image_add` return (`none` when the
creation fails and the toolkit returns a null pointer). -/
structure Toolkit where
  backend : Backend
  screen_size : Int × Int
  elm_bg_add : Option EvasObject
  elm_image_add : Option EvasObject
  deriving DecidableEq

/-- The calls the code makes to its collaborators, with the object each one targets. -/
inductive Call where
  | natural_orientation
  | ecore_x_window_prop_property_set (window : Option EvasObject)
  | ecore_x_vsync_animator_tick_source_set (window : Option EvasObject)
  | ecore_x_window_size_get
  | ecore_wl_screen_size_get
  | evas_object_resize (obj : Option EvasObject) (w : Int) (h : Int)
  | evas_object_show (obj : Option EvasObject)
  | evas_object_hide (obj : Option EvasObject)
  | evas_object_del (obj : Option EvasObject)
  | elm_bg_add (parent : Option EvasObject)
  | elm_bg_file_set (obj : Option EvasObject) (file : String)
  | elm_bg_option_set (obj : Option EvasObject)
  | elm_bg_color_set (obj : Option EvasObject) (r : Int) (g : Int) (b : Int)
  | elm_image_add (parent : Option EvasObject)
  | elm_image_file_set (obj : Option EvasObject) (file : String)
  deriving DecidableEq

/-- The undefined behaviours the source can run into: a null pointer dereferenced,
`front()` of an empty vector, and a variable read before it is written. -/
inductive Fault where
  | null_dereference
  | front_of_empty_vector
  | uninitialized_read
  deriving DecidableEq

namespace SplashScreen

/-- Modelled from the spec: the reason of a hide request, "`reason ∈ {RENDERED,
LOAD_FINISHED}`", declared in `runtime/browser/splash_screen.h`, which is not part of the
sources; the names are the ones the source uses. -/
inductive HideReason where
  | RENDERED
  | LOADFINISHED
  deriving DecidableEq

/-- The type `SplashScreenBound` of the source, a `std::pair<int, int>`. -/
abbrev SplashScreenBound := Int × Int

end SplashScreen

/-- The data members of `runtime::SplashScreen`. -/
structure SplashScreen where
  window_ : Option NativeWindow
  ss_info_ : Option wgt.parse.SplashScreenInfo
  image_ : Option EvasObject
  background_ : Option EvasObject
  is_active_ : Bool
  deriving DecidableEq

namespace SplashScreen

/-- The method `SplashScreen::GetDimensions` (lines 146-161): the screen size, after the
backend's size query and a resize of `background_`.  The object is not modified. -/
def GetDimensions (tk : Toolkit) (self : SplashScreen) :
    Except Fault (SplashScreenBound × List Call) :=
  match tk.backend with
  | Backend.X11 =>
    match self.window_ with
    | none => .error Fault.null_dereference
    | some window =>
      .ok (tk.screen_size,
        [Call.ecore_x_window_prop_property_set window.evas_object,
         Call.ecore_x_vsync_animator_tick_source_set window.evas_object,
         Call.ecore_x_window_size_get,
         Call.evas_object_resize self.background_ tk.screen_size.1 tk.screen_size.2])
  | Backend.WAYLAND =>
    .ok (tk.screen_size,
      [Call.ecore_wl_screen_size_get,
       Call.evas_object_resize self.background_ tk.screen_size.1 tk.screen_size.2])
  | Backend.NEITHER => .error Fault.uninitialized_read

/-- The calls of `SetBackground` that apply the background image: none when
`background_image` is empty, else the file (base path followed by the first element)
and the stretch option. -/
def backgroundImageCalls (background : Option EvasObject)
    (splash_data : wgt.parse.SplashScreenData) (app_path : String) : List Call :=
  match splash_data.background_image with
  | [] => []
  | background_image_path :: _ =>
    [Call.elm_bg_file_set background (app_path ++ background_image_path),
     Call.elm_bg_option_set background]

/-- The calls of `SetBackground` that apply the background colour: none when
`background_color` is null. -/
def backgroundColorCalls (background : Option EvasObject)
    (splash_data : wgt.parse.SplashScreenData) : List Call :=
  match splash_data.background_color with
  | none => []
  | some color => [Call.elm_bg_color_set background color.red color.green color.blue]

/-- The method `SplashScreen::SetBackground` (lines 163-185). -/
def SetBackground (tk : Toolkit) (self : SplashScreen)
    (splash_data : wgt.parse.SplashScreenData) (parent : Option EvasObject)
    (bound : SplashScreenBound) (app_path : String) : SplashScreen × List Call :=
  let self := { self with background_ := tk.elm_bg_add }
  if self.background_.isNone then (self, [Call.elm_bg_add parent])
  else
    (self,
      [Call.elm_bg_add parent, Call.evas_object_resize self.background_ bound.1 bound.2]
        ++ backgroundImageCalls self.background_ splash_data app_path
        ++ backgroundColorCalls self.background_ splash_data
        ++ [Call.evas_object_show self.background_])

/-- The method `SplashScreen::SetImage` (lines 187-199).  `image.front()` is read without
a test for emptiness. -/
def SetImage (tk : Toolkit) (self : SplashScreen)
    (splash_data : wgt.parse.SplashScreenData) (_parent : Option EvasObject)
    (bound : SplashScreenBound) (app_path : String) :
    Except Fault (SplashScreen × List Call) :=
  if self.background_.isNone then .ok (self, [])
  else
    let self := { self with image_ := tk.elm_image_add }
    if self.image_.isNone then .ok (self, [Call.elm_image_add self.background_])
    else
      match splash_data.image with
      | [] => .error Fault.front_of_empty_vector
      | image_path :: _ =>
        .ok (self,
          [Call.elm_image_add self.background_,
           Call.elm_image_file_set self.image_ (app_path ++ image_path),
           Call.evas_object_resize self.image_ bound.1 bound.2,
           Call.evas_object_show self.image_])

/-- The constructor `SplashScreen::SplashScreen` (lines 100-123): the object it builds
and the calls it makes. -/
def SplashScreen (tk : Toolkit) (window : Option NativeWindow)
    (ss_info : Option wgt.parse.SplashScreenInfo) (app_path : String) :
    Except Fault (SplashScreen × List Call) :=
  let self : runtime.SplashScreen :=
    { window_ := window, ss_info_ := ss_info, image_ := none, background_ := none,
      is_active_ := false }
  match ss_info with
  | none => .ok (self, [])
  | some info =>
    let splash_map := info.splash_screen_data
    match window with
    | none => .error Fault.null_dereference
    | some win =>
      let used_orientation := ChooseOrientation splash_map win.natural_orientation
      if used_orientation = wgt.parse.ScreenOrientation.NONE then
        .ok (self, [Call.natural_orientation])
      else
        match GetDimensions tk self with
        | .error fault => .error fault
        | .ok (dimensions, log1) =>
          let (self, log2) :=
            SetBackground tk self (splash_map.index used_orientation) win.evas_object
              dimensions app_path
          match SetImage tk self (splash_map.index used_orientation) win.evas_object
              dimensions app_path with
          | .error fault => .error fault
          | .ok (self, log3) =>
            .ok ({ self with is_active_ := true },
              Call.natural_orientation :: (log1 ++ log2 ++ log3))

/-- The method `SplashScreen::HideSplashScreen` (lines 126-144).  `ss_info_` is
dereferenced only where the left operand of `&&` holds. -/
def HideSplashScreen (self : runtime.SplashScreen) (reason : HideReason) :
    Except Fault (runtime.SplashScreen × List Call) :=
  if !self.is_active_ then .ok (self, [])
  else
    match self.ss_info_ with
    | none => .error Fault.null_dereference
    | some info =>
      if reason = HideReason.RENDERED ∧
          info.ready_when ≠ wgt.parse.ReadyWhen.FIRSTPAINT then .ok (self, [])
      else if reason = HideReason.LOADFINISHED ∧
          info.ready_when ≠ wgt.parse.ReadyWhen.COMPLETE then .ok (self, [])
      else
        .ok ({ self with background_ := none, image_ := none, is_active_ := false },
          [Call.evas_object_hide self.background_,
           Call.evas_object_hide self.image_,
           Call.evas_object_del self.background_,
           Call.evas_object_del self.image_])

/-- A sequence of `HideSplashScreen` calls, one per reason, in order; the log is the
concatenation of the logs of the calls. -/
def hideSequence (self : runtime.SplashScreen) :
    List HideReason → Except Fault (runtime.SplashScreen × List Call)
  | [] => .ok (self, [])
  | reason :: rest =>
    match HideSplashScreen self reason with
    | .error fault => .error fault
    | .ok (self1, log1) =>
      match hideSequence self1 rest with
      | .error fault => .error fault
      | .ok (self2, log2) => .ok (self2, log1 ++ log2)

/-- The reason is the configured trigger: RENDERED with FIRSTPAINT, LOADFINISHED with
COMPLETE (spec, section 4.4). -/
def matchesReadyWhen (reason : HideReason) (ready_when : wgt.parse.ReadyWhen) : Bool :=
  match reason, ready_when with
  | HideReason.RENDERED, wgt.parse.ReadyWhen.FIRSTPAINT => true
  | HideReason.LOADFINISHED, wgt.parse.ReadyWhen.COMPLETE => true
  | _, _ => false

/-- The state a matching hide request leaves: both handles null, inactive. -/
def tornDown (self : runtime.SplashScreen) : runtime.SplashScreen :=
  { self with background_ := none, image_ := none, is_active_ := false }

/-- The calls of a matching hide request: hide both surfaces, then release both. -/
def teardownCalls (self : runtime.SplashScreen) : List Call :=
  [Call.evas_object_hide self.background_, Call.evas_object_hide self.image_,
   Call.evas_object_del self.background_, Call.evas_object_del self.image_]

/-- The invariant of the spec (section 3): the two handles are both null or both
non-null, and `is_active_` is true exactly when both are non-null. -/
def controllerInvariant (self : runtime.SplashScreen) : Bool :=
  (self.background_.isSome == self.image_.isSome)
    && (self.is_active_ == (self.background_.isSome && self.image_.isSome))

/-- The part of the invariant every state of the source satisfies: an image handle has
a background handle, and an inactive object holds no handle. -/
def handlesInvariant (self : runtime.SplashScreen) : Bool :=
  (!self.image_.isSome || self.background_.isSome)
    && (self.is_active_ || (self.background_.isNone && self.image_.isNone))

/-- A life of the object: the constructor, then one `HideSplashScreen` call per reason.
The result is the last state and all the calls made, in order. -/
def lifecycle (tk : Toolkit) (window : Option NativeWindow)
    (ss_info : Option wgt.parse.SplashScreenInfo) (app_path : String)
    (reasons : List HideReason) : Except Fault (runtime.SplashScreen × List Call) :=
  match SplashScreen tk window ss_info app_path with
  | .error fault => .error fault
  | .ok (self, log1) =>
    match hideSequence self reasons with
    | .error fault => .error fault
    | .ok (final, log2) => .ok (final, log1 ++ log2)

end SplashScreen

/-- The object a surface operation (resize, show, hide, release, set file, set option,
set colour) is applied to; `none` for a call that is no surface operation. -/
def Call.target : Call → Option (Option EvasObject)
  | Call.evas_object_resize obj _ _ => some obj
  | Call.evas_object_show obj => some obj
  | Call.evas_object_hide obj => some obj
  | Call.evas_object_del obj => some obj
  | Call.elm_bg_file_set obj _ => some obj
  | Call.elm_bg_option_set obj => some obj
  | Call.elm_bg_color_set obj _ _ _ => some obj
  | Call.elm_image_file_set obj _ => some obj
  | _ => none

/-- The call is a surface operation on a null handle. -/
def Call.targetsNull (call : Call) : Bool :=
  call.target == some none

end runtime

/-! ## Library functions the border decoding calls -/

namespace std

/-- The member function `std::string::find(str)` of the C++ library: the index of the
first occurrence of `needle` in `haystack`, `none` for `npos`.  A string is the list of
its characters; the index is only used to cut the text before the occurrence. -/
def string.find (needle : List Char) : List Char → Option Nat
  | [] => if needle.isEmpty then some 0 else none
  | c :: rest =>
    if needle.isPrefixOf (c :: rest) then some 0
    else (string.find needle rest).map (· + 1)

/-- The function `isspace` of the C library in the "C" locale. -/
def isspace (c : Char) : Bool :=
  c == ' ' || c == '\t' || c == '\n' || c == '\x0b' || c == '\x0c' || c == '\r'

/-- The digit loop of `atoi`: the number the longest leading run of decimal digits
denotes, continuing from `acc`. -/
def atoi.digits : List Char → Nat → Nat
  | [], acc => acc
  | c :: rest, acc =>
    if c.isDigit then atoi.digits rest (10 * acc + (c.toNat - 48)) else acc

/-- The number `atoi` reads, as the C standard defines it through `strtol` in base 10:
white space is skipped, then an optional sign and the longest run of decimal digits are
read; the value is 0 when there is no digit.  This is the number written in the text,
of any size. -/
def atoi.value (nptr : List Char) : Int :=
  match nptr.dropWhile isspace with
  | [] => 0
  | c :: rest =>
    if c = '-' then -(atoi.digits rest 0 : Int)
    else if c = '+' then (atoi.digits rest 0 : Int)
    else (atoi.digits (c :: rest) 0 : Int)

/-- The largest `int`, 32 bits wide on the platforms the runtime is built for. -/
def INT_MAX : Int := 2147483647

/-- The smallest `int`. -/
def INT_MIN : Int := -2147483648

/-- The largest `long`, 64 bits wide. -/
def LONG_MAX : Int := 9223372036854775807

/-- The smallest `long`. -/
def LONG_MIN : Int := -9223372036854775808

/-- The function `strtol` of the C library in base 10: the number read, or `LONG_MAX`
or `LONG_MIN` when the number is above or below the range of `long`. -/
def strtol (nptr : List Char) : Int :=
  if LONG_MAX < atoi.value nptr then LONG_MAX
  else if atoi.value nptr < LONG_MIN then LONG_MIN
  else atoi.value nptr

/-- The conversion of a `long` to `int`: the value modulo 2^32 in the range of `int`. -/
def toInt (value : Int) : Int :=
  (value + 2147483648) % 4294967296 - 2147483648

/-- The function `atoi` of the C library, which always returns an `int`.  The C library
computes it as `(int) strtol(nptr, NULL, 10)`: for a number an `int` holds it is that
number; for any other number the C standard fixes no value, and the value modelled here
is the one this computation gives with a 64-bit `long` ("2147483648" gives
-2147483648). -/
def atoi (nptr : List Char) : Int :=
  toInt (strtol nptr)

end std

namespace runtime

/-! ## Border decoding -/

/-- The enumeration `BorderOption` of `SetImageBorder` (line 62). -/
inductive BorderOption where
  | REPEAT
  | STRETCH
  | ROUND
  deriving DecidableEq

/-- The value `static_cast<int>` gives an option: `REPEAT = 1`, then `STRETCH`, `ROUND`. -/
def BorderOption.toInt : BorderOption → Int
  | BorderOption.REPEAT => 1
  | BorderOption.STRETCH => 2
  | BorderOption.ROUND => 3

/-- The map `scaling_string` of `SetImageBorder` (lines 63-66), as the list of its
entries in the order a `std::map` with `std::string` keys is iterated: by key,
"repeat" before "round" before "stretch". -/
def scaling_string : List (String × BorderOption) :=
  [("repeat", BorderOption.REPEAT), ("round", BorderOption.ROUND),
   ("stretch", BorderOption.STRETCH)]

/-- Lines 72-76 of `SetImageBorder`: the pixel value one descriptor appends to
`border_values`. -/
def SetImageBorder.pushValue (border : String) (border_values : List Int) : List Int :=
  match std.string.find "px".data border.data with
  | none => border_values
  | some px_index => border_values ++ [std.atoi (border.data.take px_index)]

/-- Lines 77-82 of `SetImageBorder`: the inner loop over the entries of `scaling_string`,
which appends the option of every keyword the descriptor contains. -/
def SetImageBorder.pushOptions (border : String) :
    List (String × BorderOption) → List BorderOption → List BorderOption
  | [], border_options => border_options
  | border_string_val :: rest, border_options =>
    if (std.string.find border_string_val.1.data border.data).isSome then
      SetImageBorder.pushOptions border rest (border_options ++ [border_string_val.2])
    else SetImageBorder.pushOptions border rest border_options

/-- Lines 71-83 of `SetImageBorder`: the loop over the descriptors, from the vectors
filled so far. -/
def SetImageBorder.scan :
    List String → List Int → List BorderOption → List Int × List BorderOption
  | [], border_values, border_options => (border_values, border_options)
  | border :: rest, border_values, border_options =>
    SetImageBorder.scan rest (SetImageBorder.pushValue border border_values)
      (SetImageBorder.pushOptions border scaling_string border_options)

/-- The function `SetImageBorder` of the source (lines 59-94): the vectors
`border_values` and `border_options` its scan fills and then writes to the debug log.
The parameters `image` and `bound` are not read by the source. -/
def SetImageBorder (borders : List String) : List Int × List BorderOption :=
  SetImageBorder.scan borders [] []

/-- The pixel values the spec describes (section 4.3), written from its words: one value
per descriptor that contains "px", what `atoi` reads in the text before the first
"px". -/
def referencePixelValues (borders : List String) : List Int :=
  borders.filterMap fun border =>
    (std.string.find "px".data border.data).map fun px_index =>
      std.atoi (border.data.take px_index)

/-- The keywords of one descriptor: each of "repeat", "round", "stretch" it contains. -/
def keywordsOf (border : String) : List BorderOption :=
  (scaling_string.filter fun entry =>
    (std.string.find entry.1.data border.data).isSome).map Prod.snd

/-! ## Inputs of the worked cases -/

namespace sample

/-- A Wayland toolkit with a 720 x 1280 screen that creates both surfaces. -/
def toolkit : Toolkit :=
  { backend := Backend.WAYLAND, screen_size := (720, 1280), elm_bg_add := some 2,
    elm_image_add := some 3 }

/-- The same toolkit when the creation of the background fails. -/
def toolkitNoBackground : Toolkit := { toolkit with elm_bg_add := none }

/-- The same toolkit when the creation of the image fails. -/
def toolkitNoImage : Toolkit := { toolkit with elm_image_add := none }

/-- A window in portrait orientation. -/
def window : NativeWindow :=
  { natural_orientation := NativeWindow.ScreenOrientation.PORTRAIT_PRIMARY,
    evas_object := some 1 }

/-- An asset set with one background image and one foreground image. -/
def data : wgt.parse.SplashScreenData :=
  { background_image := ["bg.png"], image := ["logo.png"], image_border := [],
    background_color := none }

/-- An asset set with a background image and no foreground image. -/
def dataNoImage : wgt.parse.SplashScreenData := { data with image := [] }

/-- A configuration with one AUTO entry, dismissed on first paint. -/
def info : wgt.parse.SplashScreenInfo :=
  { splash_screen_data := [(wgt.parse.ScreenOrientation.AUTO, data)],
    ready_when := wgt.parse.ReadyWhen.FIRSTPAINT }

/-- The same configuration without a foreground image. -/
def infoNoImage : wgt.parse.SplashScreenInfo :=
  { splash_screen_data := [(wgt.parse.ScreenOrientation.AUTO, dataNoImage)],
    ready_when := wgt.parse.ReadyWhen.FIRSTPAINT }

/-- A configuration with a LANDSCAPE entry only. -/
def infoLandscape : wgt.parse.SplashScreenInfo :=
  { splash_screen_data := [(wgt.parse.ScreenOrientation.LANDSCAPE, data)],
    ready_when := wgt.parse.ReadyWhen.COMPLETE }

/-- The object the constructor builds from `toolkit`, `window` and `info`. -/
def active : runtime.SplashScreen :=
  { window_ := some window, ss_info_ := some info, image_ := some 3, background_ := some 2,
    is_active_ := true }

/-- The object the constructor builds from an absent configuration. -/
def inert : runtime.SplashScreen :=
  { window_ := some window, ss_info_ := none, image_ := none, background_ := none,
    is_active_ := false }

end sample

end runtime

/-! ## Lemmas on the mapping -/

namespace wgt.parse

theorem SplashMap.find_key {splash_map : SplashMap} {key : ScreenOrientation}
    {entry : ScreenOrientation × SplashScreenData}
    (h : splash_map.find key = some entry) : entry.1 = key ∧ entry ∈ splash_map := by
  unfold SplashMap.find at h
  exact ⟨by simpa using List.find?_some h, List.mem_of_find?_eq_some h⟩

theorem SplashMap.find_eq_none {splash_map : SplashMap} {key : ScreenOrientation} :
    splash_map.find key = none ↔ splash_map.hasKey key = false := by
  unfold SplashMap.find SplashMap.hasKey
  simp [List.find?_eq_none, List.any_eq_false]

theorem SplashMap.hasKey_iff {splash_map : SplashMap} {key : ScreenOrientation} :
    splash_map.hasKey key = true ↔ ∃ data, (key, data) ∈ splash_map := by
  unfold SplashMap.hasKey
  simp only [List.any_eq_true, decide_eq_true_eq]
  constructor
  · rintro ⟨⟨k, d⟩, hmem, hk⟩
    exact ⟨d, by simpa [← hk] using hmem⟩
  · rintro ⟨d, hmem⟩
    exact ⟨(key, d), hmem, rfl⟩

theorem SplashMap.find_isSome {splash_map : SplashMap} {key : ScreenOrientation}
    (h : splash_map.hasKey key = true) :
    ∃ data, splash_map.find key = some (key, data) := by
  cases hf : splash_map.find key with
  | none => rw [SplashMap.find_eq_none.mp hf] at h; cases h
  | some entry =>
    obtain ⟨k, d⟩ := entry
    have hk := (SplashMap.find_key hf).1
    simp only at hk
    exact ⟨d, by rw [hk]⟩

end wgt.parse

namespace runtime

/-- C1: `ChooseOrientation` equals the reference precedence of the spec for every mapping
and every window orientation: the key K (PORTRAIT for PORTRAIT_PRIMARY, LANDSCAPE for
every other orientation) when the mapping has an entry for K, otherwise AUTO when it has
an entry for AUTO, otherwise NONE. -/
theorem ChooseOrientation_eq_referenceResolve (splash_map : wgt.parse.SplashMap)
    (screen_orientation : NativeWindow.ScreenOrientation) :
    ChooseOrientation splash_map screen_orientation
      = referenceResolve splash_map screen_orientation := by
  have key : ∀ chosen : wgt.parse.ScreenOrientation,
      (match (if (splash_map.find chosen).isNone then
            splash_map.find wgt.parse.ScreenOrientation.AUTO
          else splash_map.find chosen) with
        | some entry => entry.1
        | none => wgt.parse.ScreenOrientation.NONE)
      = (if splash_map.hasKey chosen then chosen
         else if splash_map.hasKey wgt.parse.ScreenOrientation.AUTO then
           wgt.parse.ScreenOrientation.AUTO
         else wgt.parse.ScreenOrientation.NONE) := by
    intro chosen
    cases hc : splash_map.hasKey chosen with
    | true =>
      obtain ⟨d, hd⟩ := wgt.parse.SplashMap.find_isSome hc
      simp [hd]
    | false =>
      rw [wgt.parse.SplashMap.find_eq_none.mpr hc]
      cases ha : splash_map.hasKey wgt.parse.ScreenOrientation.AUTO with
      | true =>
        obtain ⟨d, hd⟩ := wgt.parse.SplashMap.find_isSome ha
        simp [hd]
      | false =>
        rw [wgt.parse.SplashMap.find_eq_none.mpr ha]
        simp
  unfold ChooseOrientation referenceResolve
  cases screen_orientation with
  | PORTRAIT_PRIMARY => simpa using key wgt.parse.ScreenOrientation.PORTRAIT
  | LANDSCAPE_PRIMARY => simpa using key wgt.parse.ScreenOrientation.LANDSCAPE
  | OTHER code => simpa using key wgt.parse.ScreenOrientation.LANDSCAPE

/-- C10: for every mapping and every window orientation, `ChooseOrientation` returns NONE
or a key that has an entry in the mapping; it returns none of PORTRAIT, LANDSCAPE and
AUTO when that key has no entry. -/
theorem ChooseOrientation_none_or_present (splash_map : wgt.parse.SplashMap)
    (screen_orientation : NativeWindow.ScreenOrientation) :
    (ChooseOrientation splash_map screen_orientation = wgt.parse.ScreenOrientation.NONE
      ∨ ∃ data, (ChooseOrientation splash_map screen_orientation, data) ∈ splash_map)
    ∧ ∀ key, key ≠ wgt.parse.ScreenOrientation.NONE →
        (¬ ∃ data, (key, data) ∈ splash_map) →
        ChooseOrientation splash_map screen_orientation ≠ key := by
  have main : ChooseOrientation splash_map screen_orientation
        = wgt.parse.ScreenOrientation.NONE
      ∨ ∃ data, (ChooseOrientation splash_map screen_orientation, data) ∈ splash_map := by
    have key : ∀ chosen : wgt.parse.ScreenOrientation,
        (match (if (splash_map.find chosen).isNone then
              splash_map.find wgt.parse.ScreenOrientation.AUTO
            else splash_map.find chosen) with
          | some entry => entry.1
          | none => wgt.parse.ScreenOrientation.NONE) = wgt.parse.ScreenOrientation.NONE
        ∨ ∃ data, ((match (if (splash_map.find chosen).isNone then
              splash_map.find wgt.parse.ScreenOrientation.AUTO
            else splash_map.find chosen) with
          | some entry => entry.1
          | none => wgt.parse.ScreenOrientation.NONE), data) ∈ splash_map := by
      intro chosen
      cases hc : splash_map.find chosen with
      | some entry =>
        right
        exact ⟨entry.2, by simpa using (wgt.parse.SplashMap.find_key hc).2⟩
      | none =>
        cases ha : splash_map.find wgt.parse.ScreenOrientation.AUTO with
        | some entry =>
          right
          exact ⟨entry.2, by simpa using (wgt.parse.SplashMap.find_key ha).2⟩
        | none => left; simp
    unfold ChooseOrientation
    cases screen_orientation with
    | PORTRAIT_PRIMARY => simpa using key wgt.parse.ScreenOrientation.PORTRAIT
    | LANDSCAPE_PRIMARY => simpa using key wgt.parse.ScreenOrientation.LANDSCAPE
    | OTHER code => simpa using key wgt.parse.ScreenOrientation.LANDSCAPE
  refine ⟨main, ?_⟩
  intro key hkey habsent heq
  rcases main with h | h
  · exact hkey (heq ▸ h)
  · exact habsent (heq ▸ h)

/-! ## The hide state machine -/

namespace SplashScreen

theorem hide_of_inactive (self : runtime.SplashScreen) (reason : HideReason)
    (h : self.is_active_ = false) : HideSplashScreen self reason = .ok (self, []) := by
  simp [HideSplashScreen, h]

theorem hideSequence_of_inactive (self : runtime.SplashScreen) (reasons : List HideReason)
    (h : self.is_active_ = false) : hideSequence self reasons = .ok (self, []) := by
  induction reasons with
  | nil => rfl
  | cons reason rest ih => simp [hideSequence, hide_of_inactive self reason h, ih]

theorem hide_of_match (self : runtime.SplashScreen) (info : wgt.parse.SplashScreenInfo)
    (reason : HideReason) (hactive : self.is_active_ = true)
    (hinfo : self.ss_info_ = some info)
    (hmatch : matchesReadyWhen reason info.ready_when = true) :
    HideSplashScreen self reason = .ok (tornDown self, teardownCalls self) := by
  cases reason <;> cases hrw : info.ready_when <;>
    simp_all [HideSplashScreen, matchesReadyWhen, tornDown, teardownCalls]

theorem hide_of_mismatch (self : runtime.SplashScreen) (info : wgt.parse.SplashScreenInfo)
    (reason : HideReason) (hactive : self.is_active_ = true)
    (hinfo : self.ss_info_ = some info)
    (hmatch : matchesReadyWhen reason info.ready_when = false) :
    HideSplashScreen self reason = .ok (self, []) := by
  cases reason <;> cases hrw : info.ready_when <;>
    simp_all [HideSplashScreen, matchesReadyWhen]

theorem hideSequence_active (self : runtime.SplashScreen)
    (info : wgt.parse.SplashScreenInfo) (reasons : List HideReason)
    (hactive : self.is_active_ = true) (hinfo : self.ss_info_ = some info) :
    ∃ final log, hideSequence self reasons = .ok (final, log) ∧
      (final.is_active_ = false ↔
        ∃ reason ∈ reasons, matchesReadyWhen reason info.ready_when = true) := by
  induction reasons with
  | nil => exact ⟨self, [], rfl, by simp [hactive]⟩
  | cons reason rest ih =>
    cases hm : matchesReadyWhen reason info.ready_when with
    | true =>
      refine ⟨tornDown self, teardownCalls self, ?_, ?_⟩
      · simp [hideSequence, hide_of_match self info reason hactive hinfo hm,
          hideSequence_of_inactive (tornDown self) rest rfl]
      · simp only [tornDown, true_iff]
        exact ⟨reason, List.mem_cons_self _ _, hm⟩
    | false =>
      obtain ⟨final, log, hrun, hiff⟩ := ih
      refine ⟨final, log, ?_, ?_⟩
      · simp [hideSequence, hide_of_mismatch self info reason hactive hinfo hm, hrun]
      · rw [hiff]
        constructor
        · rintro ⟨r, hr, hrm⟩
          exact ⟨r, List.mem_cons_of_mem _ hr, hrm⟩
        · rintro ⟨r, hr, hrm⟩
          rcases List.mem_cons.mp hr with rfl | hr
          · rw [hm] at hrm; cases hrm
          · exact ⟨r, hr, hrm⟩


theorem matchesReadyWhen_iff (reason : HideReason) (ready_when : wgt.parse.ReadyWhen) :
    matchesReadyWhen reason ready_when = true ↔
      (reason = HideReason.RENDERED ∧ ready_when = wgt.parse.ReadyWhen.FIRSTPAINT)
        ∨ (reason = HideReason.LOADFINISHED ∧ ready_when = wgt.parse.ReadyWhen.COMPLETE) := by
  cases reason <;> cases ready_when <;> simp [matchesReadyWhen]

theorem matchesReadyWhen_eq_false_iff (reason : HideReason)
    (ready_when : wgt.parse.ReadyWhen) :
    matchesReadyWhen reason ready_when = false ↔
      (reason = HideReason.RENDERED ∧ ready_when ≠ wgt.parse.ReadyWhen.FIRSTPAINT)
        ∨ (reason = HideReason.LOADFINISHED ∧ ready_when ≠ wgt.parse.ReadyWhen.COMPLETE) := by
  cases reason <;> cases ready_when <;> simp [matchesReadyWhen]

theorem hideSequence_of_match (self : runtime.SplashScreen)
    (info : wgt.parse.SplashScreenInfo) (reason : HideReason) (reasons : List HideReason)
    (hactive : self.is_active_ = true) (hinfo : self.ss_info_ = some info)
    (hmatch : matchesReadyWhen reason info.ready_when = true) :
    hideSequence self (reason :: reasons) = .ok (tornDown self, teardownCalls self) := by
  simp [hideSequence, hide_of_match self info reason hactive hinfo hmatch,
    hideSequence_of_inactive (tornDown self) reasons rfl]

theorem hideSequence_of_mismatch (self : runtime.SplashScreen)
    (info : wgt.parse.SplashScreenInfo) (reason : HideReason) (reasons : List HideReason)
    (hactive : self.is_active_ = true) (hinfo : self.ss_info_ = some info)
    (hmatch : matchesReadyWhen reason info.ready_when = false) :
    hideSequence self (reason :: reasons) = hideSequence self reasons := by
  simp only [hideSequence, hide_of_mismatch self info reason hactive hinfo hmatch]
  cases hideSequence self reasons with
  | error fault => rfl
  | ok result => simp

/-- C2: for an active controller (whose configuration is `info`) and every finite
sequence of hide requests, the sequence runs to an end, and the final state is inactive
if and only if some request of the sequence matches the trigger (RENDERED with
FIRSTPAINT, or LOADFINISHED with COMPLETE).  In particular, with FIRSTPAINT a
LOADFINISHED request changes nothing and a following RENDERED request tears the splash
down; with COMPLETE a RENDERED request changes nothing and a LOADFINISHED request tears
it down. -/
theorem hideSequence_inactive_iff_matching (self : runtime.SplashScreen)
    (info : wgt.parse.SplashScreenInfo) (reasons : List HideReason)
    (hactive : self.is_active_ = true) (hinfo : self.ss_info_ = some info) :
    (∃ final log, hideSequence self reasons = .ok (final, log) ∧
      (final.is_active_ = false ↔
        ∃ reason ∈ reasons,
          (reason = HideReason.RENDERED
              ∧ info.ready_when = wgt.parse.ReadyWhen.FIRSTPAINT)
            ∨ (reason = HideReason.LOADFINISHED
              ∧ info.ready_when = wgt.parse.ReadyWhen.COMPLETE)))
    ∧ (info.ready_when = wgt.parse.ReadyWhen.FIRSTPAINT →
        HideSplashScreen self HideReason.LOADFINISHED = .ok (self, [])
        ∧ hideSequence self [HideReason.LOADFINISHED, HideReason.RENDERED]
            = .ok ({ self with background_ := none, image_ := none, is_active_ := false },
                teardownCalls self))
    ∧ (info.ready_when = wgt.parse.ReadyWhen.COMPLETE →
        HideSplashScreen self HideReason.RENDERED = .ok (self, [])
        ∧ HideSplashScreen self HideReason.LOADFINISHED
            = .ok ({ self with background_ := none, image_ := none, is_active_ := false },
                teardownCalls self)) := by
  refine ⟨?_, ?_, ?_⟩
  · obtain ⟨final, log, hrun, hiff⟩ := hideSequence_active self info reasons hactive hinfo
    refine ⟨final, log, hrun, ?_⟩
    rw [hiff]
    constructor
    · rintro ⟨r, hr, hm⟩
      exact ⟨r, hr, (matchesReadyWhen_iff r info.ready_when).mp hm⟩
    · rintro ⟨r, hr, hm⟩
      exact ⟨r, hr, (matchesReadyWhen_iff r info.ready_when).mpr hm⟩
  · intro hrw
    have h1 : matchesReadyWhen HideReason.LOADFINISHED info.ready_when = false := by
      rw [hrw]; rfl
    have h2 : matchesReadyWhen HideReason.RENDERED info.ready_when = true := by
      rw [hrw]; rfl
    refine ⟨hide_of_mismatch self info _ hactive hinfo h1, ?_⟩
    rw [hideSequence_of_mismatch self info _ _ hactive hinfo h1,
      hideSequence_of_match self info _ _ hactive hinfo h2]
    rfl
  · intro hrw
    have h1 : matchesReadyWhen HideReason.RENDERED info.ready_when = false := by
      rw [hrw]; rfl
    have h2 : matchesReadyWhen HideReason.LOADFINISHED info.ready_when = true := by
      rw [hrw]; rfl
    exact ⟨hide_of_mismatch self info _ hactive hinfo h1,
      hide_of_match self info _ hactive hinfo h2⟩

theorem hideSequence_inactive_iff_matching_witness :
    sample.active.is_active_ = true ∧ sample.active.ss_info_ = some sample.info
      ∧ HideSplashScreen sample.active HideReason.LOADFINISHED = .ok (sample.active, [])
      ∧ hideSequence sample.active [HideReason.LOADFINISHED, HideReason.RENDERED]
          = .ok ({ sample.active with
                  background_ := none, image_ := none, is_active_ := false },
              [Call.evas_object_hide (some 2), Call.evas_object_hide (some 3),
               Call.evas_object_del (some 2), Call.evas_object_del (some 3)]) :=
  ⟨rfl, rfl,
    ((hideSequence_inactive_iff_matching sample.active sample.info [] rfl rfl).2.1 rfl)⟩


/-- C3: the hide state machine is a one-shot latch.  On an inactive object, whatever its
handles and its configuration (an absent one included), a hide request returns the
object unchanged and makes no call, and so does every sequence of hide requests: the
object never becomes active again.  On an active object, a matching request made twice
and followed by any further requests hides and releases each surface exactly once. -/
theorem HideSplashScreen_one_shot_latch (self : runtime.SplashScreen) (reason : HideReason)
    (reasons : List HideReason) (hinactive : self.is_active_ = false) :
    HideSplashScreen self reason = .ok (self, [])
    ∧ hideSequence self reasons = .ok (self, [])
    ∧ ∀ (active : runtime.SplashScreen) (info : wgt.parse.SplashScreenInfo),
        active.is_active_ = true → active.ss_info_ = some info →
        ((reason = HideReason.RENDERED ∧ info.ready_when = wgt.parse.ReadyWhen.FIRSTPAINT)
          ∨ (reason = HideReason.LOADFINISHED
            ∧ info.ready_when = wgt.parse.ReadyWhen.COMPLETE)) →
        hideSequence active (reason :: reason :: reasons)
          = .ok ({ active with background_ := none, image_ := none, is_active_ := false },
              [Call.evas_object_hide active.background_, Call.evas_object_hide active.image_,
               Call.evas_object_del active.background_, Call.evas_object_del active.image_]) := by
  refine ⟨hide_of_inactive self reason hinactive,
    hideSequence_of_inactive self reasons hinactive, ?_⟩
  intro active info hactive hinfo hmatch
  exact hideSequence_of_match active info reason (reason :: reasons) hactive hinfo
    ((matchesReadyWhen_iff reason info.ready_when).mpr hmatch)

theorem HideSplashScreen_one_shot_latch_witness :
    sample.inert.is_active_ = false
      ∧ HideSplashScreen sample.inert HideReason.RENDERED = .ok (sample.inert, [])
      ∧ hideSequence sample.inert [HideReason.LOADFINISHED, HideReason.RENDERED]
          = .ok (sample.inert, [])
      ∧ hideSequence sample.active
            [HideReason.RENDERED, HideReason.RENDERED, HideReason.LOADFINISHED,
             HideReason.RENDERED]
          = .ok ({ sample.active with
                  background_ := none, image_ := none, is_active_ := false },
              [Call.evas_object_hide (some 2), Call.evas_object_hide (some 3),
               Call.evas_object_del (some 2), Call.evas_object_del (some 3)]) :=
  ⟨rfl,
    (HideSplashScreen_one_shot_latch sample.inert HideReason.RENDERED
      [HideReason.LOADFINISHED, HideReason.RENDERED] rfl).1,
    (HideSplashScreen_one_shot_latch sample.inert HideReason.RENDERED
      [HideReason.LOADFINISHED, HideReason.RENDERED] rfl).2.1,
    (HideSplashScreen_one_shot_latch sample.inert HideReason.RENDERED
      [HideReason.LOADFINISHED, HideReason.RENDERED] rfl).2.2 sample.active sample.info
      rfl rfl (Or.inl ⟨rfl, rfl⟩)⟩

/-- C8: on an active controller a hide request whose reason matches the trigger hides
the background and the image, then releases the background and the image, each once,
and leaves both handles null and the object inactive. -/
theorem HideSplashScreen_matching (self : runtime.SplashScreen)
    (info : wgt.parse.SplashScreenInfo) (reason : HideReason)
    (hactive : self.is_active_ = true) (hinfo : self.ss_info_ = some info)
    (hmatch : (reason = HideReason.RENDERED
          ∧ info.ready_when = wgt.parse.ReadyWhen.FIRSTPAINT)
        ∨ (reason = HideReason.LOADFINISHED
          ∧ info.ready_when = wgt.parse.ReadyWhen.COMPLETE)) :
    HideSplashScreen self reason
      = .ok ({ self with background_ := none, image_ := none, is_active_ := false },
          [Call.evas_object_hide self.background_, Call.evas_object_hide self.image_,
           Call.evas_object_del self.background_, Call.evas_object_del self.image_]) :=
  hide_of_match self info reason hactive hinfo
    ((matchesReadyWhen_iff reason info.ready_when).mpr hmatch)

theorem HideSplashScreen_matching_witness :
    sample.active.is_active_ = true ∧ sample.active.ss_info_ = some sample.info
      ∧ HideSplashScreen sample.active HideReason.RENDERED
          = .ok ({ sample.active with
                  background_ := none, image_ := none, is_active_ := false },
              [Call.evas_object_hide (some 2), Call.evas_object_hide (some 3),
               Call.evas_object_del (some 2), Call.evas_object_del (some 3)]) :=
  ⟨rfl, rfl,
    HideSplashScreen_matching sample.active sample.info HideReason.RENDERED rfl rfl
      (Or.inl ⟨rfl, rfl⟩)⟩

/-- C9: on an active controller a hide request whose reason does not match the trigger
(RENDERED when the trigger is not FIRSTPAINT, LOADFINISHED when it is not COMPLETE)
returns the object unchanged and makes no call. -/
theorem HideSplashScreen_mismatched (self : runtime.SplashScreen)
    (info : wgt.parse.SplashScreenInfo) (reason : HideReason)
    (hactive : self.is_active_ = true) (hinfo : self.ss_info_ = some info)
    (hmismatch : (reason = HideReason.RENDERED
          ∧ info.ready_when ≠ wgt.parse.ReadyWhen.FIRSTPAINT)
        ∨ (reason = HideReason.LOADFINISHED
          ∧ info.ready_when ≠ wgt.parse.ReadyWhen.COMPLETE)) :
    HideSplashScreen self reason = .ok (self, []) :=
  hide_of_mismatch self info reason hactive hinfo
    ((matchesReadyWhen_eq_false_iff reason info.ready_when).mpr hmismatch)

theorem HideSplashScreen_mismatched_witness :
    sample.active.is_active_ = true ∧ sample.active.ss_info_ = some sample.info
      ∧ HideSplashScreen sample.active HideReason.LOADFINISHED = .ok (sample.active, []) :=
  ⟨rfl, rfl,
    HideSplashScreen_mismatched sample.active sample.info HideReason.LOADFINISHED rfl rfl
      (Or.inr ⟨rfl, by decide⟩)⟩

/-- C6: for every toolkit, every window (a null one included) and every base path, the
constructor with a null configuration builds an inactive object with both handles null
and makes no call: no surface is created, neither the orientation nor the screen size
is asked for. -/
theorem SplashScreen_absent_config (tk : Toolkit) (window : Option NativeWindow)
    (app_path : String) :
    SplashScreen tk window none app_path
      = .ok ({ window_ := window, ss_info_ := none, image_ := none, background_ := none,
               is_active_ := false }, []) := rfl

/-- C7: when `ChooseOrientation` resolves the configuration to NONE for the orientation
of the window, the constructor builds an inactive object with both handles null; the one
call it makes is the orientation query, so no surface is created and the screen size is
not asked for. -/
theorem SplashScreen_unresolved (tk : Toolkit) (window : NativeWindow)
    (info : wgt.parse.SplashScreenInfo) (app_path : String)
    (hnone : ChooseOrientation info.splash_screen_data window.natural_orientation
      = wgt.parse.ScreenOrientation.NONE) :
    SplashScreen tk (some window) (some info) app_path
      = .ok ({ window_ := some window, ss_info_ := some info, image_ := none,
               background_ := none, is_active_ := false }, [Call.natural_orientation]) := by
  simp [SplashScreen, hnone]

theorem SplashScreen_unresolved_witness :
    ChooseOrientation sample.infoLandscape.splash_screen_data
        sample.window.natural_orientation = wgt.parse.ScreenOrientation.NONE
      ∧ SplashScreen sample.toolkit (some sample.window) (some sample.infoLandscape) "/app/"
          = .ok ({ window_ := some sample.window, ss_info_ := some sample.infoLandscape,
                   image_ := none, background_ := none, is_active_ := false },
              [Call.natural_orientation]) :=
  ⟨rfl, SplashScreen_unresolved sample.toolkit sample.window sample.infoLandscape "/app/" rfl⟩


/-! ## The constructor -/

theorem GetDimensions_log (tk : Toolkit) (self : runtime.SplashScreen)
    (dimensions : SplashScreenBound) (log : List Call)
    (h : GetDimensions tk self = .ok (dimensions, log)) :
    dimensions = tk.screen_size
      ∧ Call.evas_object_resize self.background_ tk.screen_size.1 tk.screen_size.2 ∈ log := by
  unfold GetDimensions at h
  cases hb : tk.backend with
  | X11 =>
    rw [hb] at h
    cases hw : self.window_ with
    | none => rw [hw] at h; simp at h
    | some window =>
      rw [hw] at h
      simp only [Except.ok.injEq, Prod.mk.injEq] at h
      obtain ⟨h1, h2⟩ := h
      subst h1 h2
      simp
  | WAYLAND =>
    rw [hb] at h
    simp only [Except.ok.injEq, Prod.mk.injEq] at h
    obtain ⟨h1, h2⟩ := h
    subst h1 h2
    simp
  | NEITHER => rw [hb] at h; simp at h


/-- C4: the constructor marks the object active although no background was created.
For every configuration that resolves to a key and every build with a windowing backend,
when `elm_bg_add` returns a null pointer the constructor still ends with
`is_active_ = true`, both handles null; it does not create the image surface.  The spec
asks for `isActive = false` in this case. -/
theorem SplashScreen_active_without_background (tk : Toolkit) (window : NativeWindow)
    (info : wgt.parse.SplashScreenInfo) (app_path : String)
    (hres : ChooseOrientation info.splash_screen_data window.natural_orientation
      ≠ wgt.parse.ScreenOrientation.NONE)
    (hbackend : tk.backend ≠ Backend.NEITHER) (hbg : tk.elm_bg_add = none) :
    ∃ log, SplashScreen tk (some window) (some info) app_path
        = .ok ({ window_ := some window, ss_info_ := some info, image_ := none,
                 background_ := none, is_active_ := true }, log)
      ∧ ∀ parent, Call.elm_image_add parent ∉ log := by
  cases hb : tk.backend with
  | X11 => simp [SplashScreen, GetDimensions, SetBackground, SetImage, hres, hb, hbg]
  | WAYLAND => simp [SplashScreen, GetDimensions, SetBackground, SetImage, hres, hb, hbg]
  | NEITHER => exact absurd hb hbackend

/-- C15: for every configuration that resolves to a key, when both surfaces are created:
with an empty `image` vector the constructor calls `front()` on the empty vector, which
is undefined behaviour (the spec asks for a well-defined construction that sets no
file); with a non-empty `image` vector the constructor ends and the file it sets on the
image is the base path followed by the first element. -/
theorem SplashScreen_empty_image (tk : Toolkit) (window : NativeWindow)
    (info : wgt.parse.SplashScreenInfo) (app_path : String)
    (background image : EvasObject)
    (hres : ChooseOrientation info.splash_screen_data window.natural_orientation
      ≠ wgt.parse.ScreenOrientation.NONE)
    (hbackend : tk.backend ≠ Backend.NEITHER)
    (hbg : tk.elm_bg_add = some background) (himg : tk.elm_image_add = some image) :
    ((info.splash_screen_data.index
        (ChooseOrientation info.splash_screen_data window.natural_orientation)).image = [] →
      SplashScreen tk (some window) (some info) app_path
        = .error Fault.front_of_empty_vector)
    ∧ ∀ image_path rest,
        (info.splash_screen_data.index
          (ChooseOrientation info.splash_screen_data window.natural_orientation)).image
            = image_path :: rest →
        ∃ log, SplashScreen tk (some window) (some info) app_path
            = .ok ({ window_ := some window, ss_info_ := some info, image_ := some image,
                     background_ := some background, is_active_ := true }, log)
          ∧ Call.elm_image_file_set (some image) (app_path ++ image_path) ∈ log := by
  constructor
  · intro hempty
    cases hb : tk.backend with
    | X11 =>
      simp [SplashScreen, GetDimensions, SetBackground, SetImage, hres, hb, hbg, himg, hempty]
    | WAYLAND =>
      simp [SplashScreen, GetDimensions, SetBackground, SetImage, hres, hb, hbg, himg, hempty]
    | NEITHER => exact absurd hb hbackend
  · intro image_path rest himage
    cases hb : tk.backend with
    | X11 =>
      simp [SplashScreen, GetDimensions, SetBackground, SetImage, hres, hb, hbg, himg, himage]
    | WAYLAND =>
      simp [SplashScreen, GetDimensions, SetBackground, SetImage, hres, hb, hbg, himg, himage]
    | NEITHER => exact absurd hb hbackend

theorem SplashScreen_state (tk : Toolkit) (window : Option NativeWindow)
    (ss_info : Option wgt.parse.SplashScreenInfo) (app_path : String)
    (self : runtime.SplashScreen) (log : List Call)
    (hrun : SplashScreen tk window ss_info app_path = .ok (self, log)) :
    (self.is_active_ = false ∧ self.background_ = none ∧ self.image_ = none)
    ∨ (self.is_active_ = true ∧ (∃ info, self.ss_info_ = some info)
        ∧ self.background_ = tk.elm_bg_add
        ∧ self.image_ = (if tk.elm_bg_add.isSome then tk.elm_image_add else none)
        ∧ Call.evas_object_resize none tk.screen_size.1 tk.screen_size.2 ∈ log) := by
  unfold SplashScreen at hrun
  cases ss_info with
  | none =>
    simp only [Except.ok.injEq, Prod.mk.injEq] at hrun
    obtain ⟨h1, _⟩ := hrun
    subst h1
    simp
  | some info =>
    cases window with
    | none => simp at hrun
    | some win =>
      simp only at hrun
      split at hrun
      · simp only [Except.ok.injEq, Prod.mk.injEq] at hrun
        obtain ⟨h1, _⟩ := hrun
        subst h1
        simp
      · right
        split at hrun
        · simp at hrun
        · rename_i dimensions log1 hd
          have hlog := (GetDimensions_log tk _ dimensions log1 hd).2
          simp only [SetBackground, SetImage] at hrun
          generalize info.splash_screen_data.index
            (ChooseOrientation info.splash_screen_data win.natural_orientation) = data at hrun
          cases hbg : tk.elm_bg_add with
          | none =>
            simp [hbg] at hrun
            obtain ⟨h1, h2⟩ := hrun
            subst h1 h2
            simpa using hlog
          | some background =>
            cases himg : tk.elm_image_add with
            | none =>
              simp [hbg, himg] at hrun
              obtain ⟨h1, h2⟩ := hrun
              subst h1 h2
              simp [hlog]
            | some image =>
              cases himage : data.image with
              | nil => simp [hbg, himg, himage] at hrun
              | cons image_path rest =>
                simp [hbg, himg, himage] at hrun
                obtain ⟨h1, h2⟩ := hrun
                subst h1 h2
                simp [hlog]

theorem hide_result (self final : runtime.SplashScreen) (reason : HideReason)
    (log : List Call) (h : HideSplashScreen self reason = .ok (final, log)) :
    (final = self ∧ log = [])
    ∨ (self.is_active_ = true ∧ final = tornDown self ∧ log = teardownCalls self) := by
  obtain ⟨window_, ss_info_, image_, background_, is_active_⟩ := self
  unfold HideSplashScreen at h
  cases is_active_ with
  | false =>
    simp only [Bool.not_false, if_true, Except.ok.injEq, Prod.mk.injEq] at h
    exact Or.inl ⟨h.1.symm, h.2.symm⟩
  | true =>
    simp only [Bool.not_true, Bool.false_eq_true, if_false] at h
    cases ss_info_ with
    | none => simp at h
    | some info =>
      simp only at h
      split at h
      · simp only [Except.ok.injEq, Prod.mk.injEq] at h
        exact Or.inl ⟨h.1.symm, h.2.symm⟩
      · split at h
        · simp only [Except.ok.injEq, Prod.mk.injEq] at h
          exact Or.inl ⟨h.1.symm, h.2.symm⟩
        · simp only [Except.ok.injEq, Prod.mk.injEq] at h
          exact Or.inr ⟨rfl, h.1.symm, h.2.symm⟩

theorem hideSequence_result (reasons : List HideReason) :
    ∀ (self final : runtime.SplashScreen) (log : List Call),
      hideSequence self reasons = .ok (final, log) →
      (final = self ∧ log = [])
      ∨ (self.is_active_ = true ∧ final = tornDown self ∧ log = teardownCalls self) := by
  induction reasons with
  | nil =>
    intro self final log h
    simp only [hideSequence, Except.ok.injEq, Prod.mk.injEq] at h
    exact Or.inl ⟨h.1.symm, h.2.symm⟩
  | cons reason rest ih =>
    intro self final log h
    simp only [hideSequence] at h
    split at h
    · simp at h
    · rename_i self1 log1 h1
      split at h
      · simp at h
      · rename_i self2 log2 h2
        simp only [Except.ok.injEq, Prod.mk.injEq] at h
        obtain ⟨hf, hl⟩ := h
        subst hf hl
        rcases hide_result self self1 reason log1 h1 with ⟨e1, e2⟩ | ⟨ha, e1, e2⟩
        · subst e1 e2
          simpa using ih _ _ _ h2
        · subst e1 e2
          rw [hideSequence_of_inactive (tornDown self) rest rfl] at h2
          simp only [Except.ok.injEq, Prod.mk.injEq] at h2
          obtain ⟨hf, hl⟩ := h2
          subst hf hl
          exact Or.inr ⟨ha, rfl, by simp⟩

/-- C5: in every state the object reaches (the constructor with any toolkit, window,
configuration and base path, then any sequence of hide requests), an image handle has a
background handle and an inactive object holds no handle; when the toolkit creates both
surfaces, the invariant of the spec holds too: the handles are both null or both
non-null and the object is active exactly when both are non-null. -/
theorem lifecycle_invariant (tk : Toolkit) (window : Option NativeWindow)
    (ss_info : Option wgt.parse.SplashScreenInfo) (app_path : String)
    (reasons : List HideReason) (final : runtime.SplashScreen) (log : List Call)
    (hrun : lifecycle tk window ss_info app_path reasons = .ok (final, log)) :
    handlesInvariant final = true
    ∧ (tk.elm_bg_add.isSome = true → tk.elm_image_add.isSome = true →
        controllerInvariant final = true) := by
  unfold lifecycle at hrun
  split at hrun
  · simp at hrun
  · rename_i self log1 hctor
    split at hrun
    · simp at hrun
    · rename_i final1 log2 hseq
      simp only [Except.ok.injEq, Prod.mk.injEq] at hrun
      obtain ⟨hf, _⟩ := hrun
      subst hf
      have hstate := SplashScreen_state tk window ss_info app_path self log1 hctor
      rcases hideSequence_result reasons self final1 log2 hseq with ⟨e1, _⟩ | ⟨_, e1, _⟩
      · subst e1
        rcases hstate with ⟨h1, h2, h3⟩ | ⟨h1, _, h2, h3, _⟩
        · simp [handlesInvariant, controllerInvariant, h1, h2, h3]
        · constructor
          · cases hb : tk.elm_bg_add <;> simp [handlesInvariant, h1, h2, h3, hb]
          · intro hb hi
            simp [controllerInvariant, h1, h2, h3, hb, hi]
      · subst e1
        simp [handlesInvariant, controllerInvariant, tornDown]

theorem lifecycle_invariant_witness :
    lifecycle sample.toolkitNoImage (some sample.window) (some sample.info) "/app/"
        [HideReason.LOADFINISHED]
      = .ok ({ sample.active with image_ := none },
          [Call.natural_orientation, Call.ecore_wl_screen_size_get,
           Call.evas_object_resize none 720 1280, Call.elm_bg_add (some 1),
           Call.evas_object_resize (some 2) 720 1280,
           Call.elm_bg_file_set (some 2) "/app/bg.png", Call.elm_bg_option_set (some 2),
           Call.evas_object_show (some 2), Call.elm_image_add (some 2)])
    ∧ handlesInvariant { sample.active with image_ := none } = true :=
  ⟨rfl,
    (lifecycle_invariant sample.toolkitNoImage (some sample.window) (some sample.info)
      "/app/" [HideReason.LOADFINISHED] _ _ rfl).1⟩

theorem controllerInvariant_counterexample :
    lifecycle sample.toolkitNoImage (some sample.window) (some sample.info) "/app/" []
      = .ok ({ window_ := some sample.window, ss_info_ := some sample.info, image_ := none,
               background_ := some 2, is_active_ := true },
          [Call.natural_orientation, Call.ecore_wl_screen_size_get,
           Call.evas_object_resize none 720 1280, Call.elm_bg_add (some 1),
           Call.evas_object_resize (some 2) 720 1280,
           Call.elm_bg_file_set (some 2) "/app/bg.png", Call.elm_bg_option_set (some 2),
           Call.evas_object_show (some 2), Call.elm_image_add (some 2)])
    ∧ controllerInvariant
        { window_ := some sample.window, ss_info_ := some sample.info, image_ := none,
          background_ := some 2, is_active_ := true } = false :=
  ⟨rfl, rfl⟩

theorem SplashScreen_active_without_background_witness :
    ChooseOrientation sample.info.splash_screen_data sample.window.natural_orientation
        ≠ wgt.parse.ScreenOrientation.NONE
    ∧ sample.toolkitNoBackground.backend ≠ Backend.NEITHER
    ∧ sample.toolkitNoBackground.elm_bg_add = none
    ∧ ∃ log, SplashScreen sample.toolkitNoBackground (some sample.window) (some sample.info)
          "/app/"
        = .ok ({ window_ := some sample.window, ss_info_ := some sample.info,
                 image_ := none, background_ := none, is_active_ := true }, log)
      ∧ ∀ parent, Call.elm_image_add parent ∉ log :=
  ⟨by decide, by decide, rfl,
    SplashScreen_active_without_background sample.toolkitNoBackground sample.window
      sample.info "/app/" (by decide) (by decide) rfl⟩

theorem SplashScreen_empty_image_witness :
    SplashScreen sample.toolkit (some sample.window) (some sample.infoNoImage) "/app/"
        = .error Fault.front_of_empty_vector
    ∧ ∃ log, SplashScreen sample.toolkit (some sample.window) (some sample.info) "/app/"
          = .ok ({ window_ := some sample.window, ss_info_ := some sample.info,
                   image_ := some 3, background_ := some 2, is_active_ := true }, log)
        ∧ Call.elm_image_file_set (some 3) "/app/logo.png" ∈ log :=
  ⟨(SplashScreen_empty_image sample.toolkit sample.window sample.infoNoImage "/app/" 2 3
      (by decide) (by decide) rfl rfl).1 rfl,
    (SplashScreen_empty_image sample.toolkit sample.window sample.info "/app/" 2 3
      (by decide) (by decide) rfl rfl).2 "logo.png" [] rfl⟩

/-- C16: every construction that ends with an active object has resized the null
background handle: `GetDimensions` runs before `SetBackground` and passes `background_`,
still null, to `evas_object_resize`.  When the image was not created, the hide request
that tears the object down hides and releases the null image handle. -/
theorem surface_operation_on_null_handle (tk : Toolkit) (window : Option NativeWindow)
    (ss_info : Option wgt.parse.SplashScreenInfo) (app_path : String)
    (self : runtime.SplashScreen) (log : List Call)
    (hrun : SplashScreen tk window ss_info app_path = .ok (self, log))
    (hactive : self.is_active_ = true) :
    Call.evas_object_resize none tk.screen_size.1 tk.screen_size.2 ∈ log
    ∧ log.any Call.targetsNull = true
    ∧ (tk.elm_image_add = none →
        ∀ reason final log2, HideSplashScreen self reason = .ok (final, log2) →
          final.is_active_ = false →
          Call.evas_object_hide none ∈ log2 ∧ Call.evas_object_del none ∈ log2) := by
  rcases SplashScreen_state tk window ss_info app_path self log hrun with
    ⟨h1, _, _⟩ | ⟨_, _, _, h3, h4⟩
  · rw [hactive] at h1; cases h1
  · refine ⟨h4, List.any_eq_true.mpr ⟨_, h4, rfl⟩, ?_⟩
    intro himg reason final log2 hhide hfinal
    have himage : self.image_ = none := by rw [h3, himg]; simp
    rcases hide_result self final reason log2 hhide with ⟨e1, _⟩ | ⟨_, _, e2⟩
    · rw [e1, hactive] at hfinal; cases hfinal
    · subst e2
      simp [teardownCalls, himage]

theorem surface_operation_on_null_handle_witness :
    SplashScreen sample.toolkit (some sample.window) (some sample.info) "/app/"
        = .ok (sample.active,
            [Call.natural_orientation, Call.ecore_wl_screen_size_get,
             Call.evas_object_resize none 720 1280, Call.elm_bg_add (some 1),
             Call.evas_object_resize (some 2) 720 1280,
             Call.elm_bg_file_set (some 2) "/app/bg.png", Call.elm_bg_option_set (some 2),
             Call.evas_object_show (some 2), Call.elm_image_add (some 2),
             Call.elm_image_file_set (some 3) "/app/logo.png",
             Call.evas_object_resize (some 3) 720 1280, Call.evas_object_show (some 3)])
    ∧ sample.active.is_active_ = true
    ∧ Call.evas_object_resize none 720 1280 ∈
        [Call.natural_orientation, Call.ecore_wl_screen_size_get,
         Call.evas_object_resize none 720 1280, Call.elm_bg_add (some 1),
         Call.evas_object_resize (some 2) 720 1280,
         Call.elm_bg_file_set (some 2) "/app/bg.png", Call.elm_bg_option_set (some 2),
         Call.evas_object_show (some 2), Call.elm_image_add (some 2),
         Call.elm_image_file_set (some 3) "/app/logo.png",
         Call.evas_object_resize (some 3) 720 1280, Call.evas_object_show (some 3)] :=
  ⟨rfl, rfl,
    (surface_operation_on_null_handle sample.toolkit (some sample.window) (some sample.info)
      "/app/" sample.active _ rfl rfl).1⟩

end SplashScreen

/-! ## Resolution on small mappings -/

/-- C11: for every window orientation, `ChooseOrientation` on the empty mapping returns
NONE. -/
theorem ChooseOrientation_empty (screen_orientation : NativeWindow.ScreenOrientation) :
    ChooseOrientation [] screen_orientation = wgt.parse.ScreenOrientation.NONE := by
  cases screen_orientation <;> rfl

theorem ChooseOrientation_of_absent (splash_map : wgt.parse.SplashMap)
    (key : wgt.parse.ScreenOrientation)
    (hkey : splash_map.hasKey key = false)
    (hauto : splash_map.hasKey wgt.parse.ScreenOrientation.AUTO = false) :
    (match (if (splash_map.find key).isNone then
          splash_map.find wgt.parse.ScreenOrientation.AUTO
        else splash_map.find key) with
      | some entry => entry.1
      | none => wgt.parse.ScreenOrientation.NONE) = wgt.parse.ScreenOrientation.NONE := by
  rw [wgt.parse.SplashMap.find_eq_none.mpr hkey, wgt.parse.SplashMap.find_eq_none.mpr hauto]
  rfl

/-- C12: the orientation keys are never crossed.  For PORTRAIT_PRIMARY and every mapping
with neither a PORTRAIT nor an AUTO entry the result is NONE, whatever LANDSCAPE entry
the mapping has (the mapping with one LANDSCAPE entry gives NONE); for every other
orientation and every mapping with neither a LANDSCAPE nor an AUTO entry the result is
NONE, whatever PORTRAIT entry it has (the mapping with one PORTRAIT entry gives NONE). -/
theorem ChooseOrientation_not_crossed (splash_map : wgt.parse.SplashMap)
    (screen_orientation : NativeWindow.ScreenOrientation) :
    (splash_map.hasKey wgt.parse.ScreenOrientation.PORTRAIT = false →
      splash_map.hasKey wgt.parse.ScreenOrientation.AUTO = false →
      ChooseOrientation splash_map NativeWindow.ScreenOrientation.PORTRAIT_PRIMARY
        = wgt.parse.ScreenOrientation.NONE)
    ∧ (screen_orientation ≠ NativeWindow.ScreenOrientation.PORTRAIT_PRIMARY →
      splash_map.hasKey wgt.parse.ScreenOrientation.LANDSCAPE = false →
      splash_map.hasKey wgt.parse.ScreenOrientation.AUTO = false →
      ChooseOrientation splash_map screen_orientation = wgt.parse.ScreenOrientation.NONE)
    ∧ (∀ data, ChooseOrientation [(wgt.parse.ScreenOrientation.LANDSCAPE, data)]
        NativeWindow.ScreenOrientation.PORTRAIT_PRIMARY = wgt.parse.ScreenOrientation.NONE)
    ∧ (∀ data, screen_orientation ≠ NativeWindow.ScreenOrientation.PORTRAIT_PRIMARY →
        ChooseOrientation [(wgt.parse.ScreenOrientation.PORTRAIT, data)] screen_orientation
          = wgt.parse.ScreenOrientation.NONE) := by
  have hother : ∀ splash_map : wgt.parse.SplashMap,
      screen_orientation ≠ NativeWindow.ScreenOrientation.PORTRAIT_PRIMARY →
      splash_map.hasKey wgt.parse.ScreenOrientation.LANDSCAPE = false →
      splash_map.hasKey wgt.parse.ScreenOrientation.AUTO = false →
      ChooseOrientation splash_map screen_orientation
        = wgt.parse.ScreenOrientation.NONE := by
    intro splash_map hne hkey hauto
    unfold ChooseOrientation
    simp only [hne, if_false]
    exact ChooseOrientation_of_absent splash_map _ hkey hauto
  refine ⟨?_, hother splash_map, ?_, ?_⟩
  · intro hkey hauto
    unfold ChooseOrientation
    simp only [if_true]
    exact ChooseOrientation_of_absent splash_map _ hkey hauto
  · intro data
    rfl
  · intro data hne
    exact hother _ hne rfl rfl

end runtime

/-! ## Decimal digits and `atoi` -/

namespace std

theorem string.find_of_head_not_mem (c : Char) (needle pre rest : List Char)
    (hc : c ∉ pre) :
    string.find (c :: needle) (pre ++ rest)
      = (string.find (c :: needle) rest).map (· + pre.length) := by
  induction pre with
  | nil => simp
  | cons d pre ih =>
    have hd : ¬ d = c := fun h => hc (by simp [h])
    have hc2 : c ∉ pre := fun h => hc (by simp [h])
    have hpre : List.isPrefixOf (c :: needle) (d :: (pre ++ rest)) = false := by
      simp [List.isPrefixOf, Ne.symm hd]
    have hfind : string.find (c :: needle) (d :: (pre ++ rest))
        = if List.isPrefixOf (c :: needle) (d :: (pre ++ rest)) then some 0
          else (string.find (c :: needle) (pre ++ rest)).map (· + 1) := rfl
    rw [List.cons_append, hfind, hpre, ih hc2]
    simp only [Bool.false_eq_true, if_false, Option.map_map, List.length_cons]
    congr 1

theorem atoi.digits_append (l rest : List Char) (hl : ∀ c ∈ l, c.isDigit = true) :
    ∀ acc, atoi.digits (l ++ rest) acc = atoi.digits rest (atoi.digits l acc) := by
  induction l with
  | nil => intro acc; rfl
  | cons c l ih =>
    intro acc
    have hc : c.isDigit = true := hl c (by simp)
    simp only [List.cons_append, atoi.digits, hc, if_true]
    exact ih (fun d hd => hl d (by simp [hd])) _

theorem digitChar_isDigit (k : Nat) (hk : k < 10) : (Nat.digitChar k).isDigit = true := by
  interval_cases k <;> rfl

theorem digitChar_toNat (k : Nat) (hk : k < 10) : (Nat.digitChar k).toNat - 48 = k := by
  interval_cases k <;> rfl

theorem toDigitsCore_eq (fuel : Nat) :
    ∀ n ds, n < fuel →
      Nat.toDigitsCore 10 fuel n ds = Nat.toDigitsCore 10 (n + 1) n [] ++ ds := by
  induction fuel using Nat.strong_induction_on with
  | _ fuel ih =>
    intro n ds hn
    cases fuel with
    | zero => omega
    | succ fuel =>
      simp only [Nat.toDigitsCore]
      by_cases h0 : n / 10 = 0
      · simp [h0]
      · simp only [h0, if_false]
        have hlt : n / 10 < n := by omega
        rw [ih fuel (by omega) (n / 10) _ (by omega), ih n (by omega) (n / 10) _ hlt]
        simp

theorem toDigits_small (n : Nat) (hn : n < 10) : Nat.toDigits 10 n = [Nat.digitChar n] := by
  have h0 : n / 10 = 0 := by omega
  have hm : n % 10 = n := by omega
  simp [Nat.toDigits, Nat.toDigitsCore, h0, hm]

theorem toDigits_step (n : Nat) (hn : 10 ≤ n) :
    Nat.toDigits 10 n = Nat.toDigits 10 (n / 10) ++ [Nat.digitChar (n % 10)] := by
  have h0 : ¬ n / 10 = 0 := by omega
  have hlt : n / 10 < n := by omega
  have hstep : Nat.toDigitsCore 10 (n + 1) n []
      = Nat.toDigitsCore 10 n (n / 10) [Nat.digitChar (n % 10)] := by
    simp [Nat.toDigitsCore, h0]
  show Nat.toDigitsCore 10 (n + 1) n []
    = Nat.toDigitsCore 10 (n / 10 + 1) (n / 10) [] ++ [Nat.digitChar (n % 10)]
  rw [hstep, toDigitsCore_eq n (n / 10) _ hlt]

theorem toDigits_isDigit (n : Nat) : ∀ c ∈ Nat.toDigits 10 n, c.isDigit = true := by
  induction n using Nat.strong_induction_on with
  | _ n ih =>
    by_cases hn : n < 10
    · rw [toDigits_small n hn]
      intro c hc
      simp only [List.mem_singleton] at hc
      rw [hc]
      exact digitChar_isDigit n hn
    · rw [toDigits_step n (by omega)]
      intro c hc
      rcases List.mem_append.mp hc with h | h
      · exact ih (n / 10) (by omega) c h
      · simp only [List.mem_singleton] at h
        rw [h]
        exact digitChar_isDigit _ (Nat.mod_lt _ (by decide))

theorem atoi.digits_toDigits (n : Nat) : atoi.digits (Nat.toDigits 10 n) 0 = n := by
  induction n using Nat.strong_induction_on with
  | _ n ih =>
    by_cases hn : n < 10
    · rw [toDigits_small n hn]
      simp [atoi.digits, digitChar_isDigit n hn, digitChar_toNat n hn]
    · rw [toDigits_step n (by omega), atoi.digits_append _ _ (toDigits_isDigit _),
        ih (n / 10) (by omega)]
      have hk : n % 10 < 10 := Nat.mod_lt _ (by decide)
      simp only [atoi.digits, digitChar_isDigit _ hk, if_true, digitChar_toNat _ hk]
      omega

theorem toDigits_ne_nil (n : Nat) : Nat.toDigits 10 n ≠ [] := by
  by_cases hn : n < 10
  · rw [toDigits_small n hn]; simp
  · rw [toDigits_step n (by omega)]; simp

theorem isDigit_ne (c : Char) (hc : c.isDigit = true) :
    isspace c = false ∧ c ≠ '-' ∧ c ≠ '+' ∧ c ≠ 'p' ∧ c ≠ 'r' ∧ c ≠ 's' := by
  refine ⟨?_, ?_, ?_, ?_, ?_, ?_⟩
  · cases hs : isspace c with
    | false => rfl
    | true =>
      simp only [isspace, Bool.or_eq_true, beq_iff_eq] at hs
      rcases hs with ((((h | h) | h) | h) | h) | h <;> subst h <;> exact absurd hc (by decide)
  all_goals
    rintro rfl
    exact absurd hc (by decide)

theorem atoi.value_toDigits (n : Nat) : atoi.value (Nat.toDigits 10 n) = (n : Int) := by
  have hdigits := toDigits_isDigit n
  have hvalue := atoi.digits_toDigits n
  cases hl : Nat.toDigits 10 n with
  | nil => exact absurd hl (toDigits_ne_nil n)
  | cons c rest =>
    rw [hl] at hdigits hvalue
    obtain ⟨hspace, hminus, hplus, _⟩ := isDigit_ne c (hdigits c (by simp))
    simp [atoi.value, List.dropWhile, hspace, hminus, hplus, hvalue]

end std

/-! ## The value of `atoi` -/

namespace std

theorem toInt_of_int (value : Int) (hmin : INT_MIN ≤ value) (hmax : value ≤ INT_MAX) :
    toInt value = value := by
  unfold INT_MIN at hmin
  unfold INT_MAX at hmax
  unfold toInt
  omega

theorem atoi_eq_value (nptr : List Char) (hmin : INT_MIN ≤ atoi.value nptr)
    (hmax : atoi.value nptr ≤ INT_MAX) : atoi nptr = atoi.value nptr := by
  have h1 : ¬ LONG_MAX < atoi.value nptr := by
    unfold INT_MAX at hmax
    unfold LONG_MAX
    omega
  have h2 : ¬ atoi.value nptr < LONG_MIN := by
    unfold INT_MIN at hmin
    unfold LONG_MIN
    omega
  simp only [atoi, strtol, h1, h2, if_false]
  exact toInt_of_int _ hmin hmax

theorem atoi_range (nptr : List Char) : INT_MIN ≤ atoi nptr ∧ atoi nptr ≤ INT_MAX := by
  unfold atoi toInt INT_MIN INT_MAX
  omega

end std

/-! ## Border decoding -/

namespace runtime

theorem SetImageBorder.pushOptions_eq (border : String)
    (entries : List (String × BorderOption)) :
    ∀ border_options, SetImageBorder.pushOptions border entries border_options
      = border_options ++ (entries.filter fun entry =>
          (std.string.find entry.1.data border.data).isSome).map Prod.snd := by
  induction entries with
  | nil => intro border_options; simp [SetImageBorder.pushOptions]
  | cons entry rest ih =>
    intro border_options
    cases h : (std.string.find entry.1.data border.data).isSome <;>
      simp [SetImageBorder.pushOptions, List.filter, h, ih]

theorem SetImageBorder.scan_eq (borders : List String) :
    ∀ border_values border_options,
      SetImageBorder.scan borders border_values border_options
        = (border_values ++ referencePixelValues borders,
            border_options ++ borders.flatMap keywordsOf) := by
  induction borders with
  | nil =>
    intro border_values border_options
    simp [SetImageBorder.scan, referencePixelValues]
  | cons border rest ih =>
    intro border_values border_options
    simp only [SetImageBorder.scan, SetImageBorder.pushValue,
      SetImageBorder.pushOptions_eq, ih]
    cases hpx : std.string.find "px".data border.data <;>
      simp [referencePixelValues, hpx, keywordsOf]

theorem SetImageBorder_eq (borders : List String) :
    SetImageBorder borders = (referencePixelValues borders, borders.flatMap keywordsOf) := by
  simp [SetImageBorder, SetImageBorder.scan_eq]

theorem referencePixelValues_length (borders : List String) :
    (referencePixelValues borders).length ≤ borders.length :=
  List.length_filterMap_le _ _

theorem keywordsOf_length (border : String) : (keywordsOf border).length ≤ 3 := by
  unfold keywordsOf
  rw [List.length_map]
  exact List.length_filter_le _ _

theorem flatMap_keywordsOf_length (borders : List String) :
    (borders.flatMap keywordsOf).length ≤ 3 * borders.length := by
  induction borders with
  | nil => simp
  | cons border rest ih =>
    have := keywordsOf_length border
    simp only [List.flatMap_cons, List.length_append, List.length_cons]
    omega


theorem keywordsOf_nodup (border : String) : (keywordsOf border).Nodup := by
  unfold keywordsOf
  exact List.Nodup.sublist ((List.filter_sublist _).map Prod.snd) (by decide)

/-- A descriptor that starts with the decimal digits of `n` followed by "px". -/
theorem digits_px (n : Nat) (border : String) (tail : List Char)
    (hdata : border.data = Nat.toDigits 10 n ++ 'p' :: 'x' :: tail) :
    std.string.find "px".data border.data = some (Nat.toDigits 10 n).length
    ∧ border.data.take (Nat.toDigits 10 n).length = Nat.toDigits 10 n
    ∧ keywordsOf border = keywordsOf (String.mk ('p' :: 'x' :: tail)) := by
  have hmem : ∀ c, (c = 'p' ∨ c = 'r' ∨ c = 's') → c ∉ Nat.toDigits 10 n := by
    intro c hc hin
    obtain ⟨_, _, _, hp, hr, hs⟩ := std.isDigit_ne c (std.toDigits_isDigit n c hin)
    rcases hc with h | h | h
    · exact hp h
    · exact hr h
    · exact hs h
  refine ⟨?_, ?_, ?_⟩
  · rw [hdata]
    show std.string.find ('p' :: ['x']) _ = _
    rw [std.string.find_of_head_not_mem 'p' ['x'] _ _ (hmem 'p' (Or.inl rfl))]
    simp [std.string.find, List.isPrefixOf]
  · rw [hdata]
    simp
  · unfold keywordsOf
    congr 1
    apply List.filter_congr
    intro entry hentry
    rw [hdata]
    simp only [scaling_string, List.mem_cons, List.mem_singleton, List.not_mem_nil,
      or_false] at hentry
    rcases hentry with h | h | h <;> subst h
    · show (std.string.find ('r' :: "epeat".data) _).isSome = _
      rw [std.string.find_of_head_not_mem 'r' _ _ _ (hmem 'r' (Or.inr (Or.inl rfl)))]
      simp
    · show (std.string.find ('r' :: "ound".data) _).isSome = _
      rw [std.string.find_of_head_not_mem 'r' _ _ _ (hmem 'r' (Or.inr (Or.inl rfl)))]
      simp
    · show (std.string.find ('s' :: "tretch".data) _).isSome = _
      rw [std.string.find_of_head_not_mem 's' _ _ _ (hmem 's' (Or.inr (Or.inr rfl)))]
      simp

theorem SetImageBorder_digits_px (n : Nat) (hn : n ≤ 2147483647) (border : String)
    (tail : List Char)
    (hdata : border.data = Nat.toDigits 10 n ++ 'p' :: 'x' :: tail) :
    SetImageBorder [border] = ([(n : Int)], keywordsOf (String.mk ('p' :: 'x' :: tail))) := by
  obtain ⟨hfind, htake, hkeys⟩ := digits_px n border tail hdata
  have hatoi : std.atoi (Nat.toDigits 10 n) = (n : Int) := by
    rw [std.atoi_eq_value, std.atoi.value_toDigits]
    · rw [std.atoi.value_toDigits]
      unfold std.INT_MIN
      omega
    · rw [std.atoi.value_toDigits]
      unfold std.INT_MAX
      omega
  simp [SetImageBorder_eq, referencePixelValues, hfind, htake, hatoi, hkeys]

/-- C13: the counts of the border decoding.  For every list of descriptors the scan
gives at most one pixel value per descriptor, and the keywords of each descriptor in
turn: at most three per descriptor, each of "repeat", "round", "stretch" at most once,
so at most three times as many keywords as descriptors.  Descriptors with no "px" and
no keyword give no value and no keyword. -/
theorem SetImageBorder_counts (borders : List String) :
    (SetImageBorder borders).1.length ≤ borders.length
    ∧ (SetImageBorder borders).2 = borders.flatMap keywordsOf
    ∧ (SetImageBorder borders).2.length ≤ 3 * borders.length
    ∧ (∀ border, (keywordsOf border).length ≤ 3 ∧ (keywordsOf border).Nodup)
    ∧ ((∀ border ∈ borders, std.string.find "px".data border.data = none
          ∧ ∀ entry ∈ scaling_string,
              std.string.find entry.1.data border.data = none) →
        SetImageBorder borders = ([], [])) := by
  refine ⟨?_, ?_, ?_, fun border => ⟨keywordsOf_length border, keywordsOf_nodup border⟩, ?_⟩
  · rw [SetImageBorder_eq]
    exact referencePixelValues_length borders
  · rw [SetImageBorder_eq]
  · rw [SetImageBorder_eq]
    exact flatMap_keywordsOf_length borders
  · intro h
    have hvalues : referencePixelValues borders = [] := by
      unfold referencePixelValues
      rw [List.filterMap_eq_nil_iff]
      intro border hborder
      rw [(h border hborder).1]
      rfl
    have hoptions : borders.flatMap keywordsOf = [] := by
      rw [List.flatMap_eq_nil_iff]
      intro border hborder
      unfold keywordsOf
      rw [List.map_eq_nil_iff, List.filter_eq_nil_iff]
      intro entry hentry
      rw [(h border hborder).2 entry hentry]
      simp
    rw [SetImageBorder_eq, hvalues, hoptions]

theorem SetImageBorder_counts_counterexample :
    SetImageBorder ["repeat stretch"] = ([], [BorderOption.REPEAT, BorderOption.STRETCH])
    ∧ ¬ [BorderOption.REPEAT, BorderOption.STRETCH].length ≤ ["repeat stretch"].length :=
  ⟨rfl, by decide⟩

theorem data_digits (n : Nat) (a b : String) :
    (toString n ++ a ++ b).data = Nat.toDigits 10 n ++ (a.data ++ b.data) := by
  simp [String.data_append, toString, Nat.repr, List.asString]

/-- C14: canonical descriptors.  For every `n` up to `INT_MAX`, the decimal digits of
`n` followed by "px" decode to the pixel value `n` and no keyword; "repeat", "stretch"
and "round" each decode to no pixel value and their own keyword; the digits of `n`, then
"px ", then one keyword decode to the pixel value `n` and that keyword. -/
theorem SetImageBorder_canonical (n : Nat) (hn : n ≤ 2147483647) :
    SetImageBorder [toString n ++ "px"] = ([(n : Int)], [])
    ∧ SetImageBorder ["repeat"] = ([], [BorderOption.REPEAT])
    ∧ SetImageBorder ["stretch"] = ([], [BorderOption.STRETCH])
    ∧ SetImageBorder ["round"] = ([], [BorderOption.ROUND])
    ∧ ∀ entry ∈ scaling_string,
        SetImageBorder [toString n ++ "px " ++ entry.1] = ([(n : Int)], [entry.2]) := by
  refine ⟨?_, rfl, rfl, rfl, ?_⟩
  · rw [SetImageBorder_digits_px n hn (toString n ++ "px") [] rfl]
    rfl
  · intro entry hentry
    simp only [scaling_string, List.mem_cons, List.mem_singleton, List.not_mem_nil,
      or_false] at hentry
    rcases hentry with h | h | h <;> subst h
    · show SetImageBorder [toString n ++ "px " ++ "repeat"]
        = ([(n : Int)], [BorderOption.REPEAT])
      rw [SetImageBorder_digits_px n hn (toString n ++ "px " ++ "repeat") " repeat".data
        (data_digits n "px " "repeat")]
      rfl
    · show SetImageBorder [toString n ++ "px " ++ "round"]
        = ([(n : Int)], [BorderOption.ROUND])
      rw [SetImageBorder_digits_px n hn (toString n ++ "px " ++ "round") " round".data
        (data_digits n "px " "round")]
      rfl
    · show SetImageBorder [toString n ++ "px " ++ "stretch"]
        = ([(n : Int)], [BorderOption.STRETCH])
      rw [SetImageBorder_digits_px n hn (toString n ++ "px " ++ "stretch") " stretch".data
        (data_digits n "px " "stretch")]
      rfl

theorem SetImageBorder_canonical_witness :
    (10 : Nat) ≤ 2147483647
    ∧ SetImageBorder ["10px"] = ([10], [])
    ∧ SetImageBorder ["stretch"] = ([], [BorderOption.STRETCH])
    ∧ SetImageBorder ["5px round"] = ([5], [BorderOption.ROUND]) :=
  ⟨by decide, (SetImageBorder_canonical 10 (by decide)).1,
    (SetImageBorder_canonical 10 (by decide)).2.2.1,
    (SetImageBorder_canonical 5 (by decide)).2.2.2.2 ("round", BorderOption.ROUND)
      (by decide)⟩

theorem SetImageBorder_canonical_counterexample :
    toString 2147483648 ++ "px" = "2147483648px"
    ∧ SetImageBorder ["2147483648px"] = ([-2147483648], [])
    ∧ SetImageBorder ["2147483648px"] ≠ ([((2147483648 : Nat) : Int)], []) :=
  ⟨by decide, by decide, by decide⟩

/-- C17: the pixel values of the scan.  For every list of descriptors the values are
those of `referencePixelValues`: one per descriptor that contains "px", what `atoi`
reads in the text before the first "px".  A descriptor without "px" gives no value; one
with "px" gives exactly one, which is the number written before "px" whenever an `int`
holds that number, and 0 when the text before "px" has no leading number ("px" and "apx"
give 0). -/
theorem SetImageBorder_pixel_values (borders : List String) :
    (SetImageBorder borders).1 = referencePixelValues borders
    ∧ (∀ border, std.string.find "px".data border.data = none →
        SetImageBorder [border] = ([], keywordsOf border))
    ∧ (∀ border px_index, std.string.find "px".data border.data = some px_index →
        SetImageBorder [border]
          = ([std.atoi (border.data.take px_index)], keywordsOf border))
    ∧ (∀ nptr, std.INT_MIN ≤ std.atoi.value nptr → std.atoi.value nptr ≤ std.INT_MAX →
        std.atoi nptr = std.atoi.value nptr)
    ∧ SetImageBorder ["px"] = ([0], [])
    ∧ SetImageBorder ["apx"] = ([0], [])
    ∧ SetImageBorder ["12px", "round", "px"] = ([12, 0], [BorderOption.ROUND]) := by
  refine ⟨?_, ?_, ?_, std.atoi_eq_value, rfl, rfl, rfl⟩
  · rw [SetImageBorder_eq]
  · intro border hfind
    simp [SetImageBorder_eq, referencePixelValues, hfind]
  · intro border px_index hfind
    simp [SetImageBorder_eq, referencePixelValues, hfind]

end runtime
